import Mathlib

/-!
Verification of delivery_service_lists.py (Ricoh Aficio 1075 delivery
service target lists): a shallow embedding of the binary codec classes
UnpackBuf, Group, Identifiers, Version and TargetList, followed by
theorems about them.

Byte buffers are modelled as List Nat (each element a byte value).
Python struct format strings are modelled as lists of Field descriptors;
all formats used by the source are big-endian unsigned integers of width
1, 2 or 4, fixed-width byte strings, and pad bytes.

Python exceptions are modelled by the PyErr type.  UnpackBufException is
the bufferUnderrun constructor (carrying bytes left and bytes wanted, as
its message does); struct.error raised by a bare struct.unpack call is
structError; GroupException and IdentifierException keep the data their
messages carry; NameError and ValueError model the built-in exceptions.
-/

deriving instance DecidableEq for Except

namespace Aficio

/-- Python exceptions raised by delivery_service_lists.py. -/
inductive PyErr where
  | bufferUnderrun (left wanted : Nat)
  | structError
  | groupMaxColumns
  | groupUnknownFormat (flag : Nat)
  | identUnknownFlag (flag : Nat)
  | identUnknownConfigFlag (tok : String)
  | valueError
  | nameError (missing : String)
deriving Repr, DecidableEq

/-- One typed field of a struct format string: an unsigned big-endian
integer of w bytes, a fixed-width byte string of n bytes, or n pad
bytes. -/
inductive Field where
  | uint (w : Nat)
  | bytes (n : Nat)
  | pad (n : Nat)
deriving Repr, DecidableEq

/-- A value produced by unpacking one field. -/
inductive Val where
  | num (n : Nat)
  | str (s : List Nat)
deriving Repr, DecidableEq

/-- Width in bytes of one field. -/
def Field.size : Field → Nat
  | .uint w => w
  | .bytes n => n
  | .pad n => n

/-- Total width of a format, as struct.calcsize computes it. -/
def calcsize (fmt : List Field) : Nat := (fmt.map Field.size).sum

/-- Big-endian value of a byte list. -/
def beVal (bs : List Nat) : Nat := bs.foldl (fun a b => a * 256 + b) 0

/-- Big-endian encoding of n on w bytes (the low 8*w bits of n), as
struct.pack produces for an in-range argument. -/
def beBytes : Nat → Nat → List Nat
  | 0, _ => []
  | w + 1, n => n / 256 ^ w % 256 :: beBytes w n

/-- Encoding of one unsigned big-endian integer field by struct.pack. -/
def packUint (w n : Nat) : List Nat := beBytes w n

/-- Encoding of one fixed-width string field by struct.pack: truncated
to n bytes, zero-padded up to n bytes. -/
def packStr (n : Nat) (s : List Nat) : List Nat :=
  s.take n ++ List.replicate (n - s.length) 0

/-- Encoding of pad bytes by struct.pack. -/
def packPad (n : Nat) : List Nat := List.replicate n 0

/-- Reading the fields of a format from a byte list, as struct.unpack
does on a buffer of exactly the right size. -/
def readFields : List Field → List Nat → List Val
  | [], _ => []
  | .uint w :: fmt, data => .num (beVal (data.take w)) :: readFields fmt (data.drop w)
  | .bytes n :: fmt, data => .str (data.take n) :: readFields fmt (data.drop n)
  | .pad n :: fmt, data => readFields fmt (data.drop n)

/-- A bare struct.unpack call (not going through UnpackBuf): it demands
that the buffer length equal the format size exactly, and raises
struct.error otherwise. -/
def structUnpackExact (fmt : List Field) (data : List Nat) : Except PyErr (List Val) :=
  if data.length = calcsize fmt then .ok (readFields fmt data) else .error .structError

/-- The UnpackBuf class: a byte buffer plus the running offset cnt. -/
structure UnpackBuf where
  data : List Nat
  cnt : Nat
deriving Repr, DecidableEq

/-- UnpackBuf.unpack.  The bounds check happens before anything else;
on failure the exception is raised with the object unmutated, so the
returned state is the input state.  On success the offset advances by
the format width. -/
def UnpackBuf.unpack (b : UnpackBuf) (fmt : List Field) :
    Except PyErr (List Val) × UnpackBuf :=
  let l := calcsize fmt
  if b.cnt + l > b.data.length then
    (.error (.bufferUnderrun (b.data.length - b.cnt) l), b)
  else
    (.ok (readFields fmt ((b.data.drop b.cnt).take l)), ⟨b.data, b.cnt + l⟩)

/-- One display column of the Group class. -/
structure GroupColumn where
  nr : Nat
  name : List Nat
deriving Repr, DecidableEq

/-- Group._calc_max_columns: 10 columns in short (compact) mode, 5 in
wide mode. -/
def maxColumnsOf (short_columns : Bool) : Nat :=
  if short_columns then 10 else 5

/-- The Group class (column layout).  The Python attribute max_columns
is kept in sync with short_columns by _calc_max_columns on every path
that changes short_columns, so it is modelled as the derived function
Group.max_columns below. -/
structure Group where
  short_columns : Bool
  columns : List GroupColumn
deriving Repr, DecidableEq

def Group.max_columns (g : Group) : Nat := maxColumnsOf g.short_columns

/-- Group.add_column: raises GroupException when the group already
holds MORE than max_columns columns (a strict greater-than check on the
count before appending), otherwise appends. -/
def Group.add_column (g : Group) (c : GroupColumn) : Except PyErr Group :=
  if g.columns.length > g.max_columns then .error .groupMaxColumns
  else .ok { g with columns := g.columns ++ [c] }

/-- The 32 magic bytes Group.dump writes after the discriminator:
pack of a format of L 4x 2x B B with 0x2, 0x80, 0x1 followed by pack of
a format of 4s B 3x 12x with the 4 bytes of Freq and 0x2e. -/
def groupMagic : List Nat :=
  packUint 4 0x2 ++ packPad 4 ++ packPad 2 ++ packUint 1 0x80 ++ packUint 1 0x1 ++
  packStr 4 [0x46, 0x72, 0x65, 0x71] ++ packUint 1 0x2e ++ packPad 3 ++ packPad 12

/-- The on-disk bytes of one column record: L 4s 16x in short mode,
L 8s 12x in wide mode (24 bytes either way). -/
def columnBytes (short_columns : Bool) (c : GroupColumn) : List Nat :=
  if short_columns then packUint 4 c.nr ++ packStr 4 c.name ++ packPad 16
  else packUint 4 c.nr ++ packStr 8 c.name ++ packPad 12

/-- Group.dump: the discriminator (0xb for short mode, 0x6 for wide
mode), the 32 magic bytes, then one fixed-width record per column. -/
def Group.dump (g : Group) : List Nat :=
  (if g.short_columns then packUint 4 0xb else packUint 4 0x6) ++
  groupMagic ++ (g.columns.map (columnBytes g.short_columns)).flatten

/-- The column-record format Group.load unpacks per iteration. -/
def columnFmt (short_columns : Bool) : List Field :=
  if short_columns then [.uint 4, .bytes 4, .pad 16]
  else [.uint 4, .bytes 8, .pad 12]

/-- The column-reading loop of Group.load: n iterations, each
unpacking one record and passing it to add_column.  The catch-all
branches on the unpacked value shapes are unreachable (the format
always yields a number and a string) and are mapped to structError. -/
def Group.loadColumns : Nat → Group → UnpackBuf → Except PyErr Group
  | 0, g, _ => .ok g
  | n + 1, g, b =>
    match b.unpack (columnFmt g.short_columns) with
    | (.error e, _) => .error e
    | (.ok [.num nr, .str name], b1) =>
      match g.add_column ⟨nr, name⟩ with
      | .error e => .error e
      | .ok g1 => Group.loadColumns n g1 b1
    | (.ok _, _) => .error .structError

/-- The body of Group.load after the discriminator has been decoded:
skip 32 magic bytes, reset the column list, read max_columns - 1
records (the loop runs over range from 1 to max_columns). -/
def Group.loadBody (short_columns : Bool) (b : UnpackBuf) : Except PyErr Group :=
  match b.unpack [.pad 32] with
  | (.error e, _) => .error e
  | (.ok _, b1) =>
    Group.loadColumns (maxColumnsOf short_columns - 1) ⟨short_columns, []⟩ b1

/-- Group.load: reads the 4-byte discriminator, raises GroupException
carrying the value when it is neither 0xb nor 0x6, then delegates to
loadBody. -/
def Group.load (data : List Nat) : Except PyErr Group :=
  match UnpackBuf.unpack ⟨data, 0⟩ [.uint 4] with
  | (.error e, _) => .error e
  | (.ok [.num flag], b1) =>
    if flag = 0xb then Group.loadBody true b1
    else if flag = 0x6 then Group.loadBody false b1
    else .error (.groupUnknownFormat flag)
  | (.ok _, _) => .error .structError

/-- One entry of the Identifiers class. -/
structure IdentifierEntry where
  id : Nat
  use_frequently : Bool
  group_nr : Nat
  name : List Nat
deriving Repr, DecidableEq

/-- The Identifiers class: a revision number and the entry list. -/
structure Identifiers where
  revision_nr : Nat
  entries : List IdentifierEntry
deriving Repr, DecidableEq

/-- Identifiers.add_entry appends to the entry list. -/
def Identifiers.add_entry (idf : Identifiers) (e : IdentifierEntry) : Identifiers :=
  { idf with entries := idf.entries ++ [e] }

/-- Identifiers.increase adds one to the revision number. -/
def Identifiers.increase (idf : Identifiers) : Identifiers :=
  { idf with revision_nr := idf.revision_nr + 1 }

/-- The first six on-disk bytes of one identifier entry as
Identifiers.dump writes them: L with the id, then H with 0x8001 or
0x0000 for the frequency flag. -/
def identifierEntryHead (e : IdentifierEntry) : List Nat :=
  packUint 4 e.id ++
  (if e.use_frequently then packUint 2 0x8001 else packUint 2 0x0000)

/-- The remaining thirty on-disk bytes of one identifier entry: the
format H 4x 7x B 16s with the group number, the constant 0x2 and the
16-byte name field. -/
def identifierEntryTail (e : IdentifierEntry) : List Nat :=
  packUint 2 e.group_nr ++ packPad 4 ++ packPad 7 ++ packUint 1 0x2 ++
  packStr 16 e.name

/-- The on-disk bytes of one identifier entry as Identifiers.dump
writes them. -/
def identifierEntryBytes (e : IdentifierEntry) : List Nat :=
  identifierEntryHead e ++ identifierEntryTail e

/-- Identifiers.dump: a header of format L 4x L with the entry count
and the revision number, then one 36-byte record per entry. -/
def Identifiers.dump (idf : Identifiers) : List Nat :=
  packUint 4 idf.entries.length ++ packPad 4 ++ packUint 4 idf.revision_nr ++
  (idf.entries.map identifierEntryBytes).flatten

/-- The entry-reading loop of Identifiers.load: n iterations, each
unpacking L H (id and frequency flag), raising IdentifierException on
an unknown flag, then unpacking H 4x 8x 16s (group number and name)
and appending through add_entry. -/
def Identifiers.loadEntries : Nat → UnpackBuf → Identifiers → Except PyErr Identifiers
  | 0, _, idf => .ok idf
  | n + 1, b, idf =>
    match b.unpack [.uint 4, .uint 2] with
    | (.error e, _) => .error e
    | (.ok [.num id, .num flag], b1) =>
      match (if flag = 0x8001 then .ok true
             else if flag = 0 then .ok false
             else .error (.identUnknownFlag flag) : Except PyErr Bool) with
      | .error e => .error e
      | .ok use_frequently =>
        match b1.unpack [.uint 2, .pad 4, .pad 8, .bytes 16] with
        | (.error e, _) => .error e
        | (.ok [.num group_nr, .str name], b2) =>
          Identifiers.loadEntries n b2
            (idf.add_entry ⟨id, use_frequently, group_nr, name⟩)
        | (.ok _, _) => .error .structError
    | (.ok _, _) => .error .structError

/-- Identifiers.load: reads the header of format L 4x L (entry count
and revision number), resets the entry list, then reads exactly
entry-count records. -/
def Identifiers.load (data : List Nat) : Except PyErr Identifiers :=
  match UnpackBuf.unpack ⟨data, 0⟩ [.uint 4, .pad 4, .uint 4] with
  | (.error e, _) => .error e
  | (.ok [.num num_entries, .num revision_nr], b1) =>
    Identifiers.loadEntries num_entries b1 ⟨revision_nr, []⟩
  | (.ok _, _) => .error .structError

/-- Byte list of a Lean string, for configuration values (Python 2
strings are byte strings). -/
def strBytes (s : String) : List Nat := s.data.map Char.toNat

/-- Python str.split with a one-character separator, on char lists:
n separators yield n + 1 (possibly empty) pieces. -/
def splitCommaChars : List Char → List Char → List (List Char)
  | [], cur => [cur.reverse]
  | c :: rest, cur =>
    if c = ',' then cur.reverse :: splitCommaChars rest []
    else splitCommaChars rest (c :: cur)

/-- The value field of a configuration item split on commas, as
Python data.split with a comma argument produces. -/
def pySplitComma (s : String) : List (List Char) := splitCommaChars s.data []

/-- Python int() applied to a configuration key or group field,
modelled on unsigned decimal numerals (the form the configuration
uses): none means int() raises ValueError. -/
def parseNat? (s : List Char) : Option Nat :=
  if s ≠ [] ∧ s.all Char.isDigit then
    some (s.foldl (fun acc c => acc * 10 + (c.toNat - 48)) 0)
  else none

/-- The entry loop of Identifiers.load_config over the (key, value)
items of the configuration section.  int() on a key or on the group
field raises ValueError when it fails; the value must split on commas
into exactly three fields (a mismatched tuple unpacking also raises
ValueError); a frequency token other than true or false raises
IdentifierException carrying the token.  The running entry list is
returned in both outcomes, because the Python loop mutates the object
in place and an exception leaves the entries appended so far. -/
def Identifiers.loadConfigLoop :
    List (String × String) → List IdentifierEntry →
    Except PyErr Unit × List IdentifierEntry
  | [], acc => (.ok (), acc)
  | (key, data) :: items, acc =>
    match parseNat? key.data with
    | none => (.error .valueError, acc)
    | some id =>
      match pySplitComma data with
      | [name, freqTok, groupTok] =>
        match (if freqTok = "true".data then .ok true
               else if freqTok = "false".data then .ok false
               else .error (.identUnknownConfigFlag freqTok.asString) :
               Except PyErr Bool) with
        | .error e => (.error e, acc)
        | .ok use_frequently =>
          match parseNat? groupTok with
          | none => (.error .valueError, acc)
          | some group_nr =>
            Identifiers.loadConfigLoop items
              (acc ++ [⟨id, use_frequently, group_nr, name.map Char.toNat⟩])
      | _ => (.error .valueError, acc)

/-- Identifiers.load_config: calls increase() first (blindly assuming
the configuration changed), resets the entry list, then runs the entry
loop.  The mutated object is returned alongside the outcome: on an
exception the object keeps the incremented revision and the entries
appended before the raise. -/
def Identifiers.load_config (idf : Identifiers) (items : List (String × String)) :
    Except PyErr Unit × Identifiers :=
  let r := Identifiers.loadConfigLoop items []
  (r.1, ⟨idf.revision_nr + 1, r.2⟩)

/-- The Version class holds just the generation number. -/
def Version.dump (generation_nr : Nat) : List Nat := packUint 4 generation_nr

/-- Version.load: a bare struct.unpack of format L applied to the whole
buffer (not an UnpackBuf read), so the buffer must be exactly 4 bytes
long or struct.error is raised. -/
def Version.load (data : List Nat) : Except PyErr Nat :=
  match structUnpackExact [.uint 4] data with
  | .error e => .error e
  | .ok [.num generation_nr] => .ok generation_nr
  | .ok _ => .error .structError

/-- The TargetList class: per-printer aggregate of the version, the
group and the two identifier lists. -/
structure TargetList where
  printer_mac : String
  version : Nat
  group : Group
  destinations_list : Identifiers
  senders_list : Identifiers
deriving Repr, DecidableEq

/-- TargetList.set_dst as written in the source: its parameters are
spelled dself and st_list, while its body reads dst_list and self,
both of which are unbound names inside the function, so every call
raises NameError (on dst_list, the first name evaluated) before any
assignment happens. -/
def TargetList.set_dst (_tl : TargetList) (_st_list : Identifiers) :
    Except PyErr TargetList :=
  .error (.nameError "dst_list")

/-- TargetList.set_snd: clamps the incoming revision number up to the
stored one, then stores the list. -/
def TargetList.set_snd (tl : TargetList) (snd_list : Identifiers) : TargetList :=
  let clamped : Identifiers :=
    { snd_list with
      revision_nr := max snd_list.revision_nr tl.senders_list.revision_nr }
  { tl with senders_list := clamped }

/-!
A small heap model for the constructor default arguments.  In Python,
a list used as a default argument is a single list object created when
the def statement is executed: every call to Group() without a columns
argument binds the SAME list object, and likewise for Identifiers()
without an entries argument.  Each list object is a heap cell; the
class default is the cell allocated at class-definition time (index 0
of the heap, which starts out holding that one empty list), and an
explicit argument refers to whatever cell the caller passes.  An
instance records which cell its column (entry) list lives in. -/

/-- A heap of list objects holding group columns. -/
abbrev GroupHeap := List (List GroupColumn)

/-- The heap at class-definition time: the single default-argument
list object, empty, in cell 0. -/
def groupHeap0 : GroupHeap := [[]]

/-- A Group instance as an object: its own fields plus the cell its
column list aliases. -/
structure GroupObj where
  short_columns : Bool
  cell : Nat
deriving Repr, DecidableEq

/-- Group.__init__ without a columns argument: the instance aliases
the shared default-argument list object in cell 0. -/
def mkGroupDefault (short_columns : Bool) (h : GroupHeap) : GroupObj × GroupHeap :=
  (⟨short_columns, 0⟩, h)

/-- Group.__init__ with an explicit columns argument: a fresh list
object (a new cell) holds the given columns. -/
def mkGroupWith (short_columns : Bool) (cols : List GroupColumn) (h : GroupHeap) :
    GroupObj × GroupHeap :=
  (⟨short_columns, h.length⟩, h ++ [cols])

/-- The column list an instance observes: the contents of its cell. -/
def GroupObj.columns (g : GroupObj) (h : GroupHeap) : List GroupColumn :=
  h.getD g.cell []

/-- Group.add_column on an instance: the cap check, then an in-place
append to the aliased list object. -/
def GroupObj.add_column (g : GroupObj) (c : GroupColumn) (h : GroupHeap) :
    Except PyErr GroupHeap :=
  if (g.columns h).length > maxColumnsOf g.short_columns then
    .error .groupMaxColumns
  else
    .ok (h.set g.cell (g.columns h ++ [c]))

/-- A heap of list objects holding identifier entries. -/
abbrev IdentHeap := List (List IdentifierEntry)

/-- The heap at class-definition time for Identifiers: the single
default-argument list object, empty, in cell 0. -/
def identHeap0 : IdentHeap := [[]]

/-- An Identifiers instance as an object: revision number plus the
cell its entry list aliases. -/
structure IdentObj where
  revision_nr : Nat
  cell : Nat
deriving Repr, DecidableEq

/-- Identifiers.__init__ without an entries argument: the instance
aliases the shared default-argument list object in cell 0. -/
def mkIdentDefault (revision_nr : Nat) (h : IdentHeap) : IdentObj × IdentHeap :=
  (⟨revision_nr, 0⟩, h)

/-- The entry list an instance observes: the contents of its cell. -/
def IdentObj.entries (idf : IdentObj) (h : IdentHeap) : List IdentifierEntry :=
  h.getD idf.cell []

/-- Identifiers.add_entry on an instance: an in-place append to the
aliased list object. -/
def IdentObj.add_entry (idf : IdentObj) (e : IdentifierEntry) (h : IdentHeap) :
    IdentHeap :=
  h.set idf.cell (idf.entries h ++ [e])

/-- The values of a Group that survive the byte encoding unchanged:
exactly max_columns - 1 columns (decode always reads that many
records), each column number one uint32 wide and each name exactly the
fixed field width of the mode (4 bytes in short mode, 8 in wide mode).
Note 256 ^ 4 = 2 ^ 32 and 256 ^ 2 = 2 ^ 16. -/
def groupRoundValid (g : Group) : Prop :=
  g.columns.length = g.max_columns - 1 ∧
  ∀ c ∈ g.columns, c.nr < 256 ^ 4 ∧
    c.name.length = (if g.short_columns then 4 else 8)

/-- The values of an Identifiers list that survive the byte encoding
unchanged: counters one uint32 wide, group numbers one uint16 wide,
and each name exactly the fixed 16-byte field width. -/
def identRoundValid (idf : Identifiers) : Prop :=
  idf.revision_nr < 256 ^ 4 ∧ idf.entries.length < 256 ^ 4 ∧
  ∀ e ∈ idf.entries, e.id < 256 ^ 4 ∧ e.group_nr < 256 ^ 2 ∧
    e.name.length = 16

/-- The frequency token of one configuration item: the middle field
of its comma-split value. -/
def freqTokenOf (p : String × String) : List Char :=
  (pySplitComma p.2).getD 1 []

/-- A configuration item all of whose fields other than the frequency
token are well formed: the key parses as an integer, the value splits
into exactly three comma-separated fields, and the group field parses
as an integer. -/
def configItemWF (p : String × String) : Prop :=
  (parseNat? p.1.data).isSome ∧
  ∃ name ft gt, pySplitComma p.2 = [name, ft, gt] ∧ (parseNat? gt).isSome

/-!  Arithmetic and list lemmas about the byte-level primitives. -/

@[simp] theorem beBytes_length (w n : Nat) : (beBytes w n).length = w := by
  induction w generalizing n with
  | zero => rfl
  | succ k ih => simp [beBytes, ih]

@[simp] theorem packUint_length (w n : Nat) : (packUint w n).length = w :=
  beBytes_length w n

@[simp] theorem packStr_length (n : Nat) (s : List Nat) : (packStr n s).length = n := by
  simp [packStr]
  omega

@[simp] theorem packPad_length (n : Nat) : (packPad n).length = n := by
  simp [packPad]

@[simp] theorem groupMagic_length : groupMagic.length = 32 := by
  simp [groupMagic]

theorem packStr_of_length (n : Nat) (s : List Nat) (h : s.length = n) :
    packStr n s = s := by
  simp [packStr, h, List.take_of_length_le (Nat.le_of_eq h)]

theorem beVal_foldl (w : Nat) : ∀ (n a : Nat),
    (beBytes w n).foldl (fun x b => x * 256 + b) a = a * 256 ^ w + n % 256 ^ w := by
  induction w with
  | zero => intro n a; simp [beBytes, Nat.mod_one]
  | succ k ih =>
    intro n a
    have hsplit : n % 256 ^ (k + 1) = n % 256 ^ k + 256 ^ k * (n / 256 ^ k % 256) := by
      rw [pow_succ, Nat.mod_mul]
    simp only [beBytes, List.foldl_cons, ih]
    rw [hsplit, pow_succ]
    ring

theorem beVal_beBytes (w n : Nat) (h : n < 256 ^ w) :
    beVal (beBytes w n) = n := by
  unfold beVal
  rw [beVal_foldl w n 0, Nat.mod_eq_of_lt h]
  omega

theorem beVal_packUint (w n : Nat) (h : n < 256 ^ w) :
    beVal (packUint w n) = n :=
  beVal_beBytes w n h

theorem columnBytes_length (short_columns : Bool) (c : GroupColumn) :
    (columnBytes short_columns c).length = 24 := by
  cases short_columns <;> simp [columnBytes]

@[simp] theorem identifierEntryHead_length (e : IdentifierEntry) :
    (identifierEntryHead e).length = 6 := by
  by_cases h : e.use_frequently <;> simp [identifierEntryHead, h]

@[simp] theorem identifierEntryTail_length (e : IdentifierEntry) :
    (identifierEntryTail e).length = 30 := by
  simp [identifierEntryTail]

theorem identifierEntryBytes_length (e : IdentifierEntry) :
    (identifierEntryBytes e).length = 36 := by
  simp [identifierEntryBytes]

/-!  Step lemmas to evaluate readFields on a byte stream whose leading
chunk aligns with the leading field. -/

theorem readFields_uint_step (w : Nat) (fmt : List Field) (a b : List Nat)
    (h : a.length = w) :
    readFields (.uint w :: fmt) (a ++ b) = .num (beVal a) :: readFields fmt b := by
  subst h
  rw [readFields, List.take_left, List.drop_left]

theorem readFields_bytes_step (n : Nat) (fmt : List Field) (a b : List Nat)
    (h : a.length = n) :
    readFields (.bytes n :: fmt) (a ++ b) = .str a :: readFields fmt b := by
  subst h
  rw [readFields, List.take_left, List.drop_left]

theorem readFields_pad_step (n : Nat) (fmt : List Field) (a b : List Nat)
    (h : a.length = n) :
    readFields (.pad n :: fmt) (a ++ b) = readFields fmt b := by
  subst h
  rw [readFields, List.drop_left]

/-!  The two unpack workhorses: successful reads described through the
offset, and through an aligned prefix decomposition of the buffer. -/

theorem unpack_ok (d : List Nat) (cnt : Nat) (fmt : List Field)
    (h : cnt + calcsize fmt ≤ d.length) :
    UnpackBuf.unpack ⟨d, cnt⟩ fmt =
      (.ok (readFields fmt ((d.drop cnt).take (calcsize fmt))), ⟨d, cnt + calcsize fmt⟩) := by
  simp only [UnpackBuf.unpack]
  rw [if_neg (by omega)]

theorem unpack_err (d : List Nat) (cnt : Nat) (fmt : List Field)
    (h : d.length < cnt + calcsize fmt) :
    UnpackBuf.unpack ⟨d, cnt⟩ fmt =
      (.error (.bufferUnderrun (d.length - cnt) (calcsize fmt)), ⟨d, cnt⟩) := by
  simp only [UnpackBuf.unpack]
  rw [if_pos (by omega)]

@[simp] theorem calcsize_nil : calcsize [] = 0 := rfl

theorem calcsize_cons (f : Field) (fmt : List Field) :
    calcsize (f :: fmt) = f.size + calcsize fmt := by
  simp [calcsize]

@[simp] theorem calcsize_uint_cons (w : Nat) (fmt : List Field) :
    calcsize (.uint w :: fmt) = w + calcsize fmt := calcsize_cons _ _

@[simp] theorem calcsize_bytes_cons (n : Nat) (fmt : List Field) :
    calcsize (.bytes n :: fmt) = n + calcsize fmt := calcsize_cons _ _

@[simp] theorem calcsize_pad_cons (n : Nat) (fmt : List Field) :
    calcsize (.pad n :: fmt) = n + calcsize fmt := calcsize_cons _ _

theorem readFields_take (fmt : List Field) : ∀ (d : List Nat),
    calcsize fmt ≤ d.length →
    readFields fmt (d.take (calcsize fmt)) = readFields fmt d := by
  induction fmt with
  | nil => intro d _; rfl
  | cons f fmt ih =>
    intro d hd
    rw [calcsize_cons] at hd ⊢
    cases f with
    | uint w =>
      have hs : (Field.uint w).size = w := rfl
      rw [hs] at hd ⊢
      simp only [readFields]
      congr 1
      · congr 2
        rw [List.take_take]
        congr 1
        omega
      · rw [List.drop_take, show w + calcsize fmt - w = calcsize fmt by omega]
        exact ih (d.drop w) (by simp; omega)
    | bytes n =>
      have hs : (Field.bytes n).size = n := rfl
      rw [hs] at hd ⊢
      simp only [readFields]
      congr 1
      · congr 1
        rw [List.take_take]
        congr 1
        omega
      · rw [List.drop_take, show n + calcsize fmt - n = calcsize fmt by omega]
        exact ih (d.drop n) (by simp; omega)
    | pad n =>
      have hs : (Field.pad n).size = n := rfl
      rw [hs] at hd ⊢
      simp only [readFields]
      rw [List.drop_take, show n + calcsize fmt - n = calcsize fmt by omega]
      exact ih (d.drop n) (by simp; omega)

theorem unpack_pre (pre chunk rest : List Nat) (fmt : List Field)
    (h : chunk.length = calcsize fmt) :
    UnpackBuf.unpack ⟨pre ++ (chunk ++ rest), pre.length⟩ fmt =
      (.ok (readFields fmt chunk),
       ⟨pre ++ (chunk ++ rest), pre.length + calcsize fmt⟩) := by
  have hlen : pre.length + calcsize fmt ≤ (pre ++ (chunk ++ rest)).length := by
    simp [← h]
  rw [unpack_ok _ _ _ hlen, List.drop_left]
  congr 2
  rw [← h, List.take_left]

theorem unpack_stream (pre rest : List Nat) (fmt : List Field)
    (h : calcsize fmt ≤ rest.length) :
    UnpackBuf.unpack ⟨pre ++ rest, pre.length⟩ fmt =
      (.ok (readFields fmt rest), ⟨pre ++ rest, pre.length + calcsize fmt⟩) := by
  have hlen : pre.length + calcsize fmt ≤ (pre ++ rest).length := by
    simp
    omega
  rw [unpack_ok _ _ _ hlen, List.drop_left, readFields_take fmt rest h]

theorem unpack_stream0 (d : List Nat) (fmt : List Field)
    (h : calcsize fmt ≤ d.length) :
    UnpackBuf.unpack ⟨d, 0⟩ fmt =
      (.ok (readFields fmt d), ⟨d, calcsize fmt⟩) := by
  have hlen : 0 + calcsize fmt ≤ d.length := by omega
  rw [unpack_ok _ _ _ hlen, List.drop_zero, readFields_take fmt d h]
  norm_num

/-!  Evaluation of readFields on the concrete formats of the codec. -/

theorem readFields_u4 (x : List Nat) :
    readFields [.uint 4] x = [.num (beVal (x.take 4))] := by
  simp [readFields]

theorem readFields_u4u2 (x : List Nat) :
    readFields [.uint 4, .uint 2] x =
      [.num (beVal (x.take 4)), .num (beVal ((x.drop 4).take 2))] := by
  simp [readFields]

theorem readFields_identHeaderFmt (x : List Nat) :
    readFields [.uint 4, .pad 4, .uint 4] x =
      [.num (beVal (x.take 4)), .num (beVal ((x.drop 8).take 4))] := by
  simp [readFields, List.drop_drop]

theorem readFields_pad32 (x : List Nat) : readFields [.pad 32] x = [] := by
  simp [readFields]

theorem readFields_columnFmt_shape (short_columns : Bool) (x : List Nat) :
    readFields (columnFmt short_columns) x =
      [.num (beVal (x.take 4)),
       .str ((x.drop 4).take (if short_columns then 4 else 8))] := by
  cases short_columns <;> simp [columnFmt, readFields]

theorem readFields_identEntryFmt_shape (x : List Nat) :
    readFields [.uint 2, .pad 4, .pad 8, .bytes 16] x =
      [.num (beVal (x.take 2)), .str ((x.drop 14).take 16)] := by
  simp [readFields, List.drop_drop]

/-!  Evaluation of readFields on the byte streams the dump functions
produce. -/

theorem readFields_columnBytes (short_columns : Bool) (c : GroupColumn)
    (rest : List Nat) (hnr : c.nr < 256 ^ 4)
    (hname : c.name.length = if short_columns then 4 else 8) :
    readFields (columnFmt short_columns) (columnBytes short_columns c ++ rest) =
      [.num c.nr, .str c.name] := by
  cases short_columns
  · simp only [if_false, Bool.false_eq_true] at hname
    simp only [columnFmt, columnBytes, if_false, Bool.false_eq_true,
      List.append_assoc]
    rw [readFields_uint_step 4 _ _ _ (packUint_length 4 c.nr),
      packStr_of_length 8 c.name hname,
      readFields_bytes_step 8 _ _ _ hname,
      readFields_pad_step 12 _ _ _ (packPad_length 12),
      beVal_packUint 4 c.nr hnr]
    rfl
  · simp only [if_true] at hname
    simp only [columnFmt, columnBytes, if_true, List.append_assoc]
    rw [readFields_uint_step 4 _ _ _ (packUint_length 4 c.nr),
      packStr_of_length 4 c.name hname,
      readFields_bytes_step 4 _ _ _ hname,
      readFields_pad_step 16 _ _ _ (packPad_length 16),
      beVal_packUint 4 c.nr hnr]
    rfl

theorem readFields_identEntryHead (e : IdentifierEntry) (rest : List Nat)
    (hid : e.id < 256 ^ 4) :
    readFields [.uint 4, .uint 2] (identifierEntryHead e ++ rest) =
      [.num e.id, .num (if e.use_frequently then 0x8001 else 0x0000)] := by
  cases hf : e.use_frequently <;>
    simp only [identifierEntryHead, hf, if_true, if_false, Bool.false_eq_true,
      List.append_assoc] <;>
    rw [readFields_uint_step 4 _ _ _ (packUint_length 4 e.id),
      readFields_uint_step 2 _ _ _ (packUint_length 2 _),
      beVal_packUint 4 e.id hid] <;>
    rfl

theorem readFields_identEntryTail (e : IdentifierEntry) (rest : List Nat)
    (hg : e.group_nr < 256 ^ 2) (hn : e.name.length = 16) :
    readFields [.uint 2, .pad 4, .pad 8, .bytes 16]
        (identifierEntryTail e ++ rest) =
      [.num e.group_nr, .str e.name] := by
  simp only [identifierEntryTail, List.append_assoc]
  rw [readFields_uint_step 2 _ _ _ (packUint_length 2 e.group_nr),
    readFields_pad_step 4 _ _ _ (packPad_length 4),
    ← List.append_assoc (packPad 7) (packUint 1 0x2),
    readFields_pad_step 8 _ _ _ (by simp),
    packStr_of_length 16 e.name hn,
    readFields_bytes_step 16 _ _ _ hn,
    beVal_packUint 2 e.group_nr hg]
  rfl

theorem readFields_identHeaderBytes (n rev : Nat) (rest : List Nat)
    (hn : n < 256 ^ 4) (hrev : rev < 256 ^ 4) :
    readFields [.uint 4, .pad 4, .uint 4]
        (packUint 4 n ++ packPad 4 ++ packUint 4 rev ++ rest) =
      [.num n, .num rev] := by
  simp only [List.append_assoc]
  rw [readFields_uint_step 4 _ _ _ (packUint_length 4 n),
    readFields_pad_step 4 _ _ _ (packPad_length 4),
    readFields_uint_step 4 _ _ _ (packUint_length 4 rev),
    beVal_packUint 4 n hn, beVal_packUint 4 rev hrev]
  rfl

/-!  Helper lemmas about add_column and Version.load, shared by
several theorems below. -/

theorem add_column_ok (g : Group) (c : GroupColumn)
    (h : g.columns.length ≤ g.max_columns) :
    g.add_column c = .ok { g with columns := g.columns ++ [c] } := by
  simp only [Group.add_column]
  rw [if_neg (by omega)]

theorem add_column_err (g : Group) (c : GroupColumn)
    (h : g.max_columns < g.columns.length) :
    g.add_column c = .error .groupMaxColumns := by
  simp only [Group.add_column]
  rw [if_pos (by omega)]

theorem version_load_ok_len4 (data : List Nat) (h : data.length = 4) :
    Version.load data = .ok (beVal data) := by
  have hc : calcsize [Field.uint 4] = 4 := rfl
  have h4 : data.take 4 = data := by rw [← h, List.take_length]
  have hr : readFields [Field.uint 4] data = [.num (beVal data)] := by
    rw [readFields, h4]
    rfl
  simp only [Version.load, structUnpackExact, hc, h]
  simp [hr]

theorem version_load_err_len (data : List Nat) (h : data.length ≠ 4) :
    Version.load data = .error .structError := by
  have hc : calcsize [Field.uint 4] = 4 := rfl
  simp only [Version.load, structUnpackExact, hc]
  rw [if_neg h]

/-!  Step equations of the decode loops: one lemma per way a loop
iteration can go, each a direct unfolding of the definition under a
hypothesis fixing the unpack outcome. -/

theorem loadColumns_cons_ok (n : Nat) (g g1 : Group) (b b1 : UnpackBuf)
    (nr : Nat) (name : List Nat)
    (hu : b.unpack (columnFmt g.short_columns) = (.ok [.num nr, .str name], b1))
    (ha : g.add_column ⟨nr, name⟩ = .ok g1) :
    Group.loadColumns (n + 1) g b = Group.loadColumns n g1 b1 := by
  simp only [Group.loadColumns, hu, ha]

theorem loadColumns_cons_err (n : Nat) (g : Group) (b b1 : UnpackBuf) (e : PyErr)
    (hu : b.unpack (columnFmt g.short_columns) = (.error e, b1)) :
    Group.loadColumns (n + 1) g b = .error e := by
  simp only [Group.loadColumns, hu]

theorem loadBody_ok (short_columns : Bool) (b b1 : UnpackBuf) (vals : List Val)
    (hu : b.unpack [.pad 32] = (.ok vals, b1)) :
    Group.loadBody short_columns b =
      Group.loadColumns (maxColumnsOf short_columns - 1) ⟨short_columns, []⟩ b1 := by
  simp only [Group.loadBody, hu]

theorem loadBody_err (short_columns : Bool) (b b1 : UnpackBuf) (e : PyErr)
    (hu : b.unpack [.pad 32] = (.error e, b1)) :
    Group.loadBody short_columns b = .error e := by
  simp only [Group.loadBody, hu]

theorem group_load_eq (data : List Nat) (flag : Nat) (b1 : UnpackBuf)
    (hu : UnpackBuf.unpack ⟨data, 0⟩ [.uint 4] = (.ok [.num flag], b1)) :
    Group.load data =
      if flag = 0xb then Group.loadBody true b1
      else if flag = 0x6 then Group.loadBody false b1
      else .error (.groupUnknownFormat flag) := by
  simp only [Group.load, hu]

theorem loadEntries_cons_ok (n : Nat) (b b1 b2 : UnpackBuf) (idf : Identifiers)
    (id flag : Nat) (uf : Bool) (group_nr : Nat) (name : List Nat)
    (hu1 : b.unpack [.uint 4, .uint 2] = (.ok [.num id, .num flag], b1))
    (huf : (if flag = 0x8001 then .ok true
            else if flag = 0 then .ok false
            else .error (.identUnknownFlag flag) : Except PyErr Bool) = .ok uf)
    (hu2 : b1.unpack [.uint 2, .pad 4, .pad 8, .bytes 16] =
      (.ok [.num group_nr, .str name], b2)) :
    Identifiers.loadEntries (n + 1) b idf =
      Identifiers.loadEntries n b2 (idf.add_entry ⟨id, uf, group_nr, name⟩) := by
  simp only [Identifiers.loadEntries, hu1, huf, hu2]

theorem loadEntries_cons_err1 (n : Nat) (b b1 : UnpackBuf) (idf : Identifiers)
    (e : PyErr) (hu1 : b.unpack [.uint 4, .uint 2] = (.error e, b1)) :
    Identifiers.loadEntries (n + 1) b idf = .error e := by
  simp only [Identifiers.loadEntries, hu1]

theorem loadEntries_cons_flag_err (n : Nat) (b b1 : UnpackBuf) (idf : Identifiers)
    (id flag : Nat)
    (hu1 : b.unpack [.uint 4, .uint 2] = (.ok [.num id, .num flag], b1))
    (h1 : flag ≠ 0x8001) (h2 : flag ≠ 0) :
    Identifiers.loadEntries (n + 1) b idf = .error (.identUnknownFlag flag) := by
  simp only [Identifiers.loadEntries, hu1, h1, h2, if_false]

theorem loadEntries_cons_err2 (n : Nat) (b b1 b2 : UnpackBuf) (idf : Identifiers)
    (id flag : Nat) (uf : Bool) (e : PyErr)
    (hu1 : b.unpack [.uint 4, .uint 2] = (.ok [.num id, .num flag], b1))
    (huf : (if flag = 0x8001 then .ok true
            else if flag = 0 then .ok false
            else .error (.identUnknownFlag flag) : Except PyErr Bool) = .ok uf)
    (hu2 : b1.unpack [.uint 2, .pad 4, .pad 8, .bytes 16] = (.error e, b2)) :
    Identifiers.loadEntries (n + 1) b idf = .error e := by
  simp only [Identifiers.loadEntries, hu1, huf, hu2]

theorem ident_load_eq (data : List Nat) (num_entries revision_nr : Nat)
    (b1 : UnpackBuf)
    (hu : UnpackBuf.unpack ⟨data, 0⟩ [.uint 4, .pad 4, .uint 4] =
      (.ok [.num num_entries, .num revision_nr], b1)) :
    Identifiers.load data =
      Identifiers.loadEntries num_entries b1 ⟨revision_nr, []⟩ := by
  simp only [Identifiers.load, hu]

/-!  Round-trip lemmas for the three codecs. -/

theorem loadColumns_roundtrip (short_columns : Bool) :
    ∀ (cols : List GroupColumn) (g : Group) (pre : List Nat),
    g.short_columns = short_columns →
    g.columns.length + cols.length ≤ maxColumnsOf short_columns - 1 →
    (∀ c ∈ cols, c.nr < 256 ^ 4 ∧
      c.name.length = (if short_columns then 4 else 8)) →
    Group.loadColumns cols.length g
        ⟨pre ++ (cols.map (columnBytes short_columns)).flatten, pre.length⟩ =
      .ok { g with columns := g.columns ++ cols } := by
  intro cols
  induction cols with
  | nil =>
    intro g pre _ _ _
    simp [Group.loadColumns]
  | cons c cols ih =>
    intro g pre hshort hcap hval
    obtain ⟨hnr, hname⟩ := hval c (by simp)
    have hsz : calcsize (columnFmt short_columns) = 24 := by
      cases short_columns <;> rfl
    have hmax : maxColumnsOf short_columns = 10 ∨ maxColumnsOf short_columns = 5 := by
      cases short_columns <;> simp [maxColumnsOf]
    have hgm : g.max_columns = maxColumnsOf short_columns := by
      rw [Group.max_columns, hshort]
    rw [List.map_cons, List.flatten_cons, List.length_cons]
    have hstream : UnpackBuf.unpack
        ⟨pre ++ (columnBytes short_columns c ++
          (cols.map (columnBytes short_columns)).flatten), pre.length⟩
        (columnFmt g.short_columns) =
        (.ok [.num c.nr, .str c.name],
         ⟨pre ++ (columnBytes short_columns c ++
           (cols.map (columnBytes short_columns)).flatten),
          pre.length + 24⟩) := by
      rw [hshort, unpack_stream pre _ _
          (by rw [hsz]; simp [columnBytes_length]),
        readFields_columnBytes short_columns c _ hnr hname, hsz]
    rw [loadColumns_cons_ok cols.length g
        { g with columns := g.columns ++ [c] } _ _ c.nr c.name hstream
        (add_column_ok g c (by
          rw [hgm]
          simp only [List.length_cons] at hcap
          rcases hmax with h | h <;> rw [h] at hcap ⊢ <;> omega))]
    rw [show pre ++ (columnBytes short_columns c ++
          (cols.map (columnBytes short_columns)).flatten) =
        (pre ++ columnBytes short_columns c) ++
          (cols.map (columnBytes short_columns)).flatten from
      (List.append_assoc _ _ _).symm]
    rw [show pre.length + 24 = (pre ++ columnBytes short_columns c).length from by
      simp [columnBytes_length]]
    rw [ih { g with columns := g.columns ++ [c] } _ (by simpa using hshort)
      (by
        simp only [List.length_cons] at hcap
        simp only [List.length_append, List.length_cons, List.length_nil]
        omega)
      (fun c2 hc2 => hval c2 (by simp [hc2]))]
    simp

theorem loadEntries_roundtrip :
    ∀ (es : List IdentifierEntry) (idf : Identifiers) (pre : List Nat),
    (∀ e ∈ es, e.id < 256 ^ 4 ∧ e.group_nr < 256 ^ 2 ∧ e.name.length = 16) →
    Identifiers.loadEntries es.length
        ⟨pre ++ (es.map identifierEntryBytes).flatten, pre.length⟩ idf =
      .ok { idf with entries := idf.entries ++ es } := by
  intro es
  induction es with
  | nil =>
    intro idf pre _
    simp [Identifiers.loadEntries]
  | cons e es ih =>
    intro idf pre hval
    obtain ⟨hid, hg, hn⟩ := hval e (by simp)
    rw [List.map_cons, List.flatten_cons, List.length_cons]
    rw [show identifierEntryBytes e ++ (es.map identifierEntryBytes).flatten =
        identifierEntryHead e ++ (identifierEntryTail e ++
          (es.map identifierEntryBytes).flatten) from by
      rw [identifierEntryBytes, List.append_assoc]]
    have hs1 : calcsize [Field.uint 4, Field.uint 2] = 6 := rfl
    have hs2 : calcsize [Field.uint 2, Field.pad 4, Field.pad 8, Field.bytes 16] = 30 := rfl
    have hstream1 : UnpackBuf.unpack
        ⟨pre ++ (identifierEntryHead e ++ (identifierEntryTail e ++
          (es.map identifierEntryBytes).flatten)), pre.length⟩
        [.uint 4, .uint 2] =
        (.ok [.num e.id, .num (if e.use_frequently then 0x8001 else 0x0000)],
         ⟨pre ++ (identifierEntryHead e ++ (identifierEntryTail e ++
           (es.map identifierEntryBytes).flatten)), pre.length + 6⟩) := by
      rw [unpack_stream pre _ _ (by rw [hs1]; simp),
        readFields_identEntryHead e _ hid, hs1]
    have huf : (if (if e.use_frequently then 0x8001 else 0x0000) = 0x8001
          then .ok true
          else if (if e.use_frequently then 0x8001 else 0x0000) = 0
          then .ok false
          else .error (.identUnknownFlag
            (if e.use_frequently then 0x8001 else 0x0000)) : Except PyErr Bool) =
        .ok e.use_frequently := by
      cases hf : e.use_frequently <;> simp
    have hstream2 : UnpackBuf.unpack
        ⟨(pre ++ identifierEntryHead e) ++ (identifierEntryTail e ++
          (es.map identifierEntryBytes).flatten),
         (pre ++ identifierEntryHead e).length⟩
        [.uint 2, .pad 4, .pad 8, .bytes 16] =
        (.ok [.num e.group_nr, .str e.name],
         ⟨(pre ++ identifierEntryHead e) ++ (identifierEntryTail e ++
           (es.map identifierEntryBytes).flatten),
          (pre ++ identifierEntryHead e).length + 30⟩) := by
      rw [unpack_stream _ _ _ (by rw [hs2]; simp),
        readFields_identEntryTail e _ hg hn, hs2]
    rw [loadEntries_cons_ok es.length _ _ _ idf e.id _ e.use_frequently
      e.group_nr e.name hstream1 huf (by
        rw [show pre ++ (identifierEntryHead e ++ (identifierEntryTail e ++
            (es.map identifierEntryBytes).flatten)) =
          (pre ++ identifierEntryHead e) ++ (identifierEntryTail e ++
            (es.map identifierEntryBytes).flatten) from
          (List.append_assoc _ _ _).symm,
          show pre.length + 6 = (pre ++ identifierEntryHead e).length from by simp]
        exact hstream2)]
    rw [show (pre ++ identifierEntryHead e) ++ (identifierEntryTail e ++
        (es.map identifierEntryBytes).flatten) =
      ((pre ++ identifierEntryHead e) ++ identifierEntryTail e) ++
        (es.map identifierEntryBytes).flatten from
      (List.append_assoc _ _ _).symm]
    rw [show (pre ++ identifierEntryHead e).length + 30 =
        ((pre ++ identifierEntryHead e) ++ identifierEntryTail e).length from by
      simp]
    rw [ih (idf.add_entry ⟨e.id, e.use_frequently, e.group_nr, e.name⟩) _
      (fun e2 he2 => hval e2 (by simp [he2]))]
    simp [Identifiers.add_entry]

/-!  Behaviour of the column-reading loop on arbitrary buffers: it
succeeds with the requested number of columns whenever enough bytes
remain, and its outcome depends only on the buffer bytes from the
current offset on. -/

theorem loadColumns_shape :
    ∀ (n : Nat) (gs : Bool) (gcols : List GroupColumn) (d : List Nat) (cnt : Nat),
    gcols.length + n ≤ maxColumnsOf gs - 1 →
    cnt + 24 * n ≤ d.length →
    ∃ g2, Group.loadColumns n ⟨gs, gcols⟩ ⟨d, cnt⟩ = .ok g2 ∧
      g2.short_columns = gs ∧ g2.columns.length = gcols.length + n := by
  intro n
  induction n with
  | zero =>
    intro gs gcols d cnt _ _
    exact ⟨⟨gs, gcols⟩, rfl, rfl, by simp⟩
  | succ n ih =>
    intro gs gcols d cnt hcap hfit
    have hsz : calcsize (columnFmt gs) = 24 := by cases gs <;> rfl
    have hmx : 5 ≤ maxColumnsOf gs ∧ maxColumnsOf gs ≤ 10 := by
      cases gs <;> simp [maxColumnsOf]
    have hu := unpack_ok d cnt (columnFmt gs) (by rw [hsz]; omega)
    rw [readFields_columnFmt_shape, hsz] at hu
    have hbound : (⟨gs, gcols⟩ : Group).columns.length ≤
        (⟨gs, gcols⟩ : Group).max_columns := by
      show gcols.length ≤ maxColumnsOf gs
      omega
    obtain ⟨g2, h1, h2, h3⟩ := ih gs
      (gcols ++ [⟨beVal (((d.drop cnt).take 24).take 4),
        (((d.drop cnt).take 24).drop 4).take (if gs then 4 else 8)⟩])
      d (cnt + 24)
      (by simp only [List.length_append, List.length_cons, List.length_nil]; omega)
      (by omega)
    refine ⟨g2, ?_, h2, by
      simp only [List.length_append, List.length_cons, List.length_nil] at h3
      omega⟩
    rw [loadColumns_cons_ok n ⟨gs, gcols⟩
      ⟨gs, gcols ++ [⟨beVal (((d.drop cnt).take 24).take 4),
        (((d.drop cnt).take 24).drop 4).take (if gs then 4 else 8)⟩]⟩
      ⟨d, cnt⟩ ⟨d, cnt + 24⟩
      (beVal (((d.drop cnt).take 24).take 4))
      ((((d.drop cnt).take 24).drop 4).take (if gs then 4 else 8))
      hu
      (show (⟨gs, gcols⟩ : Group).add_column _ = _ from add_column_ok _ _ hbound)]
    exact h1

theorem loadColumns_congr :
    ∀ (n : Nat) (g : Group) (cnt : Nat) (d1 d2 : List Nat),
    d1.length = d2.length → d1.drop cnt = d2.drop cnt →
    Group.loadColumns n g ⟨d1, cnt⟩ = Group.loadColumns n g ⟨d2, cnt⟩ := by
  intro n
  induction n with
  | zero => intro g cnt d1 d2 _ _; rfl
  | succ n ih =>
    intro g cnt d1 d2 hlen hdrop
    by_cases hfit : cnt + calcsize (columnFmt g.short_columns) ≤ d1.length
    · have hu1 := unpack_ok d1 cnt (columnFmt g.short_columns) hfit
      have hu2 := unpack_ok d2 cnt (columnFmt g.short_columns) (by omega)
      rw [readFields_columnFmt_shape, hdrop] at hu1
      rw [readFields_columnFmt_shape] at hu2
      simp only [Group.loadColumns, hu1, hu2]
      cases g.add_column ⟨beVal (((d2.drop cnt).take
          (calcsize (columnFmt g.short_columns))).take 4),
        (((d2.drop cnt).take (calcsize (columnFmt g.short_columns))).drop 4).take
          (if g.short_columns then 4 else 8)⟩ with
      | error e => rfl
      | ok g1 =>
        exact ih g1 (cnt + calcsize (columnFmt g.short_columns)) d1 d2 hlen
          (by rw [← List.drop_drop, hdrop, List.drop_drop])
    · have hu1 := unpack_err d1 cnt (columnFmt g.short_columns) (by omega)
      have hu2 := unpack_err d2 cnt (columnFmt g.short_columns) (by omega)
      rw [loadColumns_cons_err n g _ _ _ hu1, loadColumns_cons_err n g _ _ _ hu2,
        hlen]

theorem loadBody_congr (short_columns : Bool) (cnt : Nat) (d1 d2 : List Nat)
    (hlen : d1.length = d2.length)
    (hdrop : d1.drop (cnt + 32) = d2.drop (cnt + 32)) :
    Group.loadBody short_columns ⟨d1, cnt⟩ =
      Group.loadBody short_columns ⟨d2, cnt⟩ := by
  have hsz : calcsize [Field.pad 32] = 32 := rfl
  by_cases hfit : cnt + 32 ≤ d1.length
  · have hu1 := unpack_ok d1 cnt [.pad 32] (by rw [hsz]; omega)
    have hu2 := unpack_ok d2 cnt [.pad 32] (by rw [hsz]; omega)
    rw [hsz] at hu1 hu2
    rw [loadBody_ok _ _ _ _ hu1, loadBody_ok _ _ _ _ hu2]
    exact loadColumns_congr _ _ _ d1 d2 hlen hdrop
  · have hu1 := unpack_err d1 cnt [.pad 32] (by rw [hsz]; omega)
    have hu2 := unpack_err d2 cnt [.pad 32] (by rw [hsz]; omega)
    rw [loadBody_err _ _ _ _ hu1, loadBody_err _ _ _ _ hu2, hlen]

/-!  Behaviour of the entry-reading loop on truncated buffers: when
fewer bytes remain than the requested entry count needs, the loop
always raises, with the underrun error unless an unknown frequency
flag is hit first, and never reads past the end. -/

theorem loadEntries_truncated :
    ∀ (n : Nat) (d : List Nat) (cnt : Nat) (idf : Identifiers),
    cnt ≤ d.length → d.length < cnt + 36 * n →
    ∃ err, Identifiers.loadEntries n ⟨d, cnt⟩ idf = .error err ∧
      ((∃ left wanted, err = .bufferUnderrun left wanted) ∨
       (∃ flag, err = .identUnknownFlag flag)) := by
  intro n
  induction n with
  | zero =>
    intro d cnt idf h1 h2
    exact absurd h2 (by omega)
  | succ n ih =>
    intro d cnt idf h1 h2
    have hs1 : calcsize [Field.uint 4, Field.uint 2] = 6 := rfl
    have hs2 : calcsize [Field.uint 2, Field.pad 4, Field.pad 8, Field.bytes 16] = 30 := rfl
    by_cases hf1 : cnt + 6 ≤ d.length
    · have hu1 := unpack_ok d cnt [.uint 4, .uint 2] (by rw [hs1]; omega)
      rw [readFields_u4u2, hs1] at hu1
      by_cases hflag : beVal ((((d.drop cnt).take 6).drop 4).take 2) = 0x8001 ∨
          beVal ((((d.drop cnt).take 6).drop 4).take 2) = 0
      · have huf : (if beVal ((((d.drop cnt).take 6).drop 4).take 2) = 0x8001
              then .ok true
              else if beVal ((((d.drop cnt).take 6).drop 4).take 2) = 0
              then .ok false
              else .error (.identUnknownFlag
                (beVal ((((d.drop cnt).take 6).drop 4).take 2))) :
              Except PyErr Bool) =
            .ok (beVal ((((d.drop cnt).take 6).drop 4).take 2) = 0x8001 : Bool) := by
          rcases hflag with h | h <;> rw [h] <;> rfl
        by_cases hf2 : cnt + 36 ≤ d.length
        · have hu2 := unpack_ok d (cnt + 6)
            [.uint 2, .pad 4, .pad 8, .bytes 16] (by rw [hs2]; omega)
          rw [readFields_identEntryFmt_shape, hs2] at hu2
          rw [loadEntries_cons_ok n _ _ _ idf _ _ _ _ _ hu1 huf hu2]
          obtain ⟨err, he, hkind⟩ := ih d (cnt + 6 + 30) _ (by omega) (by omega)
          exact ⟨err, he, hkind⟩
        · have hu2 := unpack_err d (cnt + 6)
            [.uint 2, .pad 4, .pad 8, .bytes 16] (by rw [hs2]; omega)
          rw [loadEntries_cons_err2 n _ _ _ idf _ _ _ _ hu1 huf hu2]
          exact ⟨_, rfl, Or.inl ⟨_, _, rfl⟩⟩
      · push_neg at hflag
        rw [loadEntries_cons_flag_err n _ _ idf _ _ hu1 hflag.1 hflag.2]
        exact ⟨_, rfl, Or.inr ⟨_, rfl⟩⟩
    · have hu1 := unpack_err d cnt [.uint 4, .uint 2] (by rw [hs1]; omega)
      rw [loadEntries_cons_err1 n _ _ idf _ hu1]
      exact ⟨_, rfl, Or.inl ⟨_, _, rfl⟩⟩

/-!  Behaviour of the configuration-entry loop on well-formed items:
IdentifierException is raised exactly when some frequency token is
neither the true nor the false spelling. -/

theorem loadConfigLoop_malformed_iff :
    ∀ (items : List (String × String)) (acc : List IdentifierEntry),
    (∀ p ∈ items, configItemWF p) →
    ((∃ tok, (Identifiers.loadConfigLoop items acc).1 =
        .error (.identUnknownConfigFlag tok)) ↔
      ∃ p ∈ items, freqTokenOf p ≠ "true".data ∧ freqTokenOf p ≠ "false".data) := by
  intro items
  induction items with
  | nil =>
    intro acc _
    simp [Identifiers.loadConfigLoop]
  | cons p items ih =>
    intro acc hwf
    obtain ⟨hid, name, ft, gt, hsplit, hgt⟩ := hwf p (by simp)
    obtain ⟨key, data⟩ := p
    obtain ⟨id, hkey⟩ := Option.isSome_iff_exists.mp hid
    obtain ⟨gnum, hgnum⟩ := Option.isSome_iff_exists.mp hgt
    have htok : freqTokenOf (key, data) = ft := by
      simp [freqTokenOf, hsplit]
    by_cases hft : ft = "true".data
    · have hstep : Identifiers.loadConfigLoop ((key, data) :: items) acc =
          Identifiers.loadConfigLoop items
            (acc ++ [⟨id, true, gnum, name.map Char.toNat⟩]) := by
        simp [Identifiers.loadConfigLoop, hkey, hsplit, hft, hgnum]
      rw [hstep, ih _ (fun q hq => hwf q (by simp [hq]))]
      constructor
      · rintro ⟨q, hq, hbad⟩
        exact ⟨q, by simp [hq], hbad⟩
      · rintro ⟨q, hq, hbad⟩
        rcases List.mem_cons.mp hq with heq | hmem
        · rw [heq, htok, hft] at hbad
          exact absurd rfl hbad.1
        · exact ⟨q, hmem, hbad⟩
    · by_cases hff : ft = "false".data
      · have hstep : Identifiers.loadConfigLoop ((key, data) :: items) acc =
            Identifiers.loadConfigLoop items
              (acc ++ [⟨id, false, gnum, name.map Char.toNat⟩]) := by
          simp [Identifiers.loadConfigLoop, hkey, hsplit, hft, hff, hgnum]
        rw [hstep, ih _ (fun q hq => hwf q (by simp [hq]))]
        constructor
        · rintro ⟨q, hq, hbad⟩
          exact ⟨q, by simp [hq], hbad⟩
        · rintro ⟨q, hq, hbad⟩
          rcases List.mem_cons.mp hq with heq | hmem
          · rw [heq, htok, hff] at hbad
            exact absurd rfl hbad.2
          · exact ⟨q, hmem, hbad⟩
      · have hstep : Identifiers.loadConfigLoop ((key, data) :: items) acc =
            (.error (.identUnknownConfigFlag ft.asString), acc) := by
          simp [Identifiers.loadConfigLoop, hkey, hsplit, hft, hff]
        rw [hstep]
        constructor
        · intro _
          exact ⟨(key, data), by simp, by rw [htok]; exact ⟨hft, hff⟩⟩
        · intro _
          exact ⟨ft.asString, rfl⟩

/-!  Claim theorems. -/

/-- C6: for every UnpackBuf cursor and format, unpack fails with
UnpackBufException carrying the bytes remaining and the bytes wanted
exactly when the format width exceeds the bytes remaining past the
current offset; it raises no other error; on success it advances the
offset by exactly the consumed width and leaves the data untouched;
and its outcome depends only on the bytes of the requested in-bounds
window (and the buffer length checked against it), so it never
accesses bytes outside the buffer. -/
theorem unpack_bounds_spec (b : UnpackBuf) (fmt : List Field) :
    ((b.unpack fmt).1 =
        .error (.bufferUnderrun (b.data.length - b.cnt) (calcsize fmt)) ↔
      b.data.length < b.cnt + calcsize fmt) ∧
    (∀ e, (b.unpack fmt).1 = .error e →
      e = .bufferUnderrun (b.data.length - b.cnt) (calcsize fmt)) ∧
    (∀ vals, (b.unpack fmt).1 = .ok vals →
      (b.unpack fmt).2 = ⟨b.data, b.cnt + calcsize fmt⟩) ∧
    (∀ b2 : UnpackBuf, b2.cnt = b.cnt → b2.data.length = b.data.length →
      (b2.data.drop b2.cnt).take (calcsize fmt) =
        (b.data.drop b.cnt).take (calcsize fmt) →
      (b2.unpack fmt).1 = (b.unpack fmt).1) := by
  obtain ⟨d, cnt⟩ := b
  by_cases h : cnt + calcsize fmt ≤ d.length
  · rw [unpack_ok d cnt fmt h]
    refine ⟨by simp; omega, by simp, by simp, ?_⟩
    intro b2 hcnt hlen hwin
    obtain ⟨d2, cnt2⟩ := b2
    simp only at hcnt hlen hwin
    rw [hcnt] at hwin
    rw [unpack_ok d2 cnt2 fmt (by omega), hcnt, hwin]
  · rw [unpack_err d cnt fmt (by omega)]
    refine ⟨by simp; omega, by simp, by simp, ?_⟩
    intro b2 hcnt hlen hwin
    obtain ⟨d2, cnt2⟩ := b2
    simp only at hcnt hlen hwin
    rw [unpack_err d2 cnt2 fmt (by omega), hlen, hcnt]

/-- C6 witness: a 4-byte read on a 2-byte buffer fails with the
underrun error carrying 2 bytes remaining and 4 wanted. -/
theorem unpack_bounds_spec_witness :
    (UnpackBuf.unpack ⟨[1, 2], 0⟩ [.uint 4]).1 =
      .error (.bufferUnderrun (([1, 2] : List Nat).length - 0) (calcsize [.uint 4])) :=
  (unpack_bounds_spec ⟨[1, 2], 0⟩ [.uint 4]).1.mpr (by decide)

/-- C9: when unpack raises, the cursor is returned with its offset
unchanged (the bounds check precedes both the read and the offset
update), so any subsequent read whose format fits the remaining bytes
still succeeds from the same position. -/
theorem unpack_atomic_on_error (b : UnpackBuf) (fmt : List Field) (e : PyErr)
    (b2 : UnpackBuf) (h : b.unpack fmt = (.error e, b2)) :
    b2 = b ∧
    ∀ fmt2, b.cnt + calcsize fmt2 ≤ b.data.length →
      ∃ vals, b2.unpack fmt2 = (.ok vals, ⟨b2.data, b2.cnt + calcsize fmt2⟩) := by
  obtain ⟨d, cnt⟩ := b
  by_cases hb : cnt + calcsize fmt ≤ d.length
  · rw [unpack_ok d cnt fmt hb] at h
    simp at h
  · rw [unpack_err d cnt fmt (by omega)] at h
    have hb2 : b2 = ⟨d, cnt⟩ := by
      have := congrArg (fun p => p.2) h
      simpa using this.symm
    subst hb2
    refine ⟨rfl, ?_⟩
    intro fmt2 hfit
    exact ⟨_, unpack_ok d cnt fmt2 hfit⟩

/-- C9 witness: after a failed 4-byte read on a 2-byte buffer, a
2-byte read from the untouched cursor succeeds. -/
theorem unpack_atomic_on_error_witness :
    ∃ vals, UnpackBuf.unpack ⟨[1, 2], 0⟩ [.uint 2] =
      (.ok vals, ⟨[1, 2], 0 + calcsize [.uint 2]⟩) :=
  (unpack_atomic_on_error ⟨[1, 2], 0⟩ [.uint 4] (.bufferUnderrun 2 4) ⟨[1, 2], 0⟩
    (by decide)).2 [.uint 2] (by decide)

/-- C10: Version.load succeeds exactly on buffers of length exactly 4,
returning the big-endian value of the buffer; any other length,
including longer buffers, raises struct.error, because the source
unpacks the whole buffer in one bare fixed-size struct call. -/
theorem version_load_exact_length (data : List Nat) :
    (data.length = 4 → Version.load data = .ok (beVal data)) ∧
    (data.length ≠ 4 → Version.load data = .error .structError) := by
  have hc : calcsize [Field.uint 4] = 4 := rfl
  constructor
  · intro h
    have h4 : data.take 4 = data := by rw [← h, List.take_length]
    have hr : readFields [Field.uint 4] data = [.num (beVal data)] := by
      rw [readFields, h4]
      rfl
    simp only [Version.load, structUnpackExact, hc, h]
    simp [hr]
  · intro h
    simp only [Version.load, structUnpackExact, hc]
    rw [if_neg h]

/-- C10 witness: a 4-byte buffer decodes to its big-endian value; a
5-byte buffer raises struct.error. -/
theorem version_load_exact_length_witness :
    Version.load [0, 0, 1, 0] = .ok (beVal [0, 0, 1, 0]) ∧
    Version.load [0, 0, 0, 1, 0] = .error .structError :=
  ⟨(version_load_exact_length [0, 0, 1, 0]).1 (by decide),
   (version_load_exact_length [0, 0, 0, 1, 0]).2 (by decide)⟩

/-- C1: the destinations setter set_dst can never perform the clamped
store the spec describes: its parameters are spelled dself and st_list
while its body reads dst_list and self, so the call raises NameError
instead of storing the list with revision max(3, 5) = 5.  The senders
setter set_snd, whose parameters are spelled correctly, does clamp the
incoming revision 3 up to the stored revision 5. -/
theorem set_dst_name_error_set_snd_clamps :
    TargetList.set_dst ⟨"0015996e1075", 1, ⟨true, []⟩, ⟨5, []⟩, ⟨5, []⟩⟩ ⟨3, []⟩ =
      .error (.nameError "dst_list") ∧
    (TargetList.set_snd ⟨"0015996e1075", 1, ⟨true, []⟩, ⟨5, []⟩, ⟨5, []⟩⟩
        ⟨3, []⟩).senders_list.revision_nr = 5 := by
  constructor
  · rfl
  · decide

/-- C8: all default-constructed Group instances alias one shared
column list and all default-constructed Identifiers instances alias
one shared entry list: appending through one instance is observed by a
later default-constructed instance, which is not an independent empty
container. -/
theorem default_argument_lists_shared :
    (GroupObj.add_column (mkGroupDefault true groupHeap0).1 ⟨1, [78, 97, 109, 101]⟩
        (mkGroupDefault true groupHeap0).2 =
      .ok [[⟨1, [78, 97, 109, 101]⟩]]) ∧
    ((mkGroupDefault true [[⟨1, [78, 97, 109, 101]⟩]]).1.columns
        (mkGroupDefault true [[⟨1, [78, 97, 109, 101]⟩]]).2 =
      [⟨1, [78, 97, 109, 101]⟩]) ∧
    (IdentObj.add_entry (mkIdentDefault 1 identHeap0).1 ⟨42, true, 1, [70]⟩
        (mkIdentDefault 1 identHeap0).2 =
      [[⟨42, true, 1, [70]⟩]]) ∧
    ((mkIdentDefault 7 [[⟨42, true, 1, [70]⟩]]).1.entries
        (mkIdentDefault 7 [[⟨42, true, 1, [70]⟩]]).2 =
      [⟨42, true, 1, [70]⟩]) := by
  decide

/-- C2 amended: decode of encode is the identity for the values each
codec can represent on disk: any generation number one uint32 wide;
any Identifiers value whose counters and ids fit their fields and
whose entry names are exactly 16 bytes; and any Group value holding
exactly max_columns - 1 columns whose names are exactly the fixed
name-field width of its mode. -/
theorem codec_roundtrip :
    (∀ n, n < 256 ^ 4 → Version.load (Version.dump n) = .ok n) ∧
    (∀ idf, identRoundValid idf →
      Identifiers.load (Identifiers.dump idf) = .ok idf) ∧
    (∀ g, groupRoundValid g → Group.load (Group.dump g) = .ok g) := by
  refine ⟨?_, ?_, ?_⟩
  · intro n hn
    rw [Version.dump, version_load_ok_len4 _ (packUint_length 4 n),
      beVal_packUint 4 n hn]
  · intro idf hval
    obtain ⟨hrev, hlen, hents⟩ := hval
    have hs : calcsize [Field.uint 4, Field.pad 4, Field.uint 4] = 12 := rfl
    have hu : UnpackBuf.unpack ⟨Identifiers.dump idf, 0⟩
        [.uint 4, .pad 4, .uint 4] =
        (.ok [.num idf.entries.length, .num idf.revision_nr],
         ⟨Identifiers.dump idf, 12⟩) := by
      rw [unpack_stream0 _ _ (by rw [hs]; simp [Identifiers.dump]; try omega), hs]
      rw [Identifiers.dump, readFields_identHeaderBytes _ _ _ hlen hrev]
    rw [ident_load_eq _ _ _ _ hu, Identifiers.dump]
    rw [show (12 : Nat) = (packUint 4 idf.entries.length ++ packPad 4 ++
        packUint 4 idf.revision_nr).length from by simp]
    rw [loadEntries_roundtrip idf.entries ⟨idf.revision_nr, []⟩ _ hents]
    rfl
  · intro g hval
    obtain ⟨gs, gcols⟩ := g
    obtain ⟨hcnt, hcols⟩ := hval
    cases gs
    · have hcnt4 : gcols.length = 4 := by simpa [Group.max_columns, maxColumnsOf] using hcnt
      have hu : UnpackBuf.unpack ⟨Group.dump ⟨false, gcols⟩, 0⟩ [.uint 4] =
          (.ok [.num 0x6], ⟨Group.dump ⟨false, gcols⟩, 4⟩) := by
        rw [unpack_stream0 _ _ (by simp [Group.dump]; try omega)]
        simp only [Group.dump, if_false, Bool.false_eq_true, List.append_assoc]
        rw [readFields_uint_step 4 _ _ _ (packUint_length 4 0x6)]
        rfl
      rw [group_load_eq _ _ _ hu]
      norm_num
      have hu2 : UnpackBuf.unpack ⟨Group.dump ⟨false, gcols⟩, 4⟩ [.pad 32] =
          (.ok [], ⟨Group.dump ⟨false, gcols⟩, 36⟩) := by
        rw [show (⟨Group.dump ⟨false, gcols⟩, 4⟩ : UnpackBuf) =
            ⟨packUint 4 0x6 ++ (groupMagic ++
              (gcols.map (columnBytes false)).flatten),
             (packUint 4 0x6).length⟩ from by
          simp [Group.dump, List.append_assoc]]
        rw [unpack_stream _ _ _ (by simp; try omega), readFields_pad32]
        simp [Group.dump, List.append_assoc]
        try omega
      rw [loadBody_ok _ _ _ _ hu2]
      rw [show Group.dump ⟨false, gcols⟩ =
          (packUint 4 0x6 ++ groupMagic) ++
            (gcols.map (columnBytes false)).flatten from by
        simp [Group.dump]]
      rw [show (36 : Nat) = (packUint 4 0x6 ++ groupMagic).length from by simp]
      rw [show maxColumnsOf false - 1 = gcols.length from by
        rw [hcnt4]; rfl]
      rw [loadColumns_roundtrip false gcols ⟨false, []⟩ _ rfl
        (by simp [maxColumnsOf, hcnt4]) (fun c hc => hcols c hc)]
      rfl
    · have hcnt9 : gcols.length = 9 := by simpa [Group.max_columns, maxColumnsOf] using hcnt
      have hu : UnpackBuf.unpack ⟨Group.dump ⟨true, gcols⟩, 0⟩ [.uint 4] =
          (.ok [.num 0xb], ⟨Group.dump ⟨true, gcols⟩, 4⟩) := by
        rw [unpack_stream0 _ _ (by simp [Group.dump]; try omega)]
        simp only [Group.dump, if_true, List.append_assoc]
        rw [readFields_uint_step 4 _ _ _ (packUint_length 4 0xb)]
        rfl
      rw [group_load_eq _ _ _ hu]
      norm_num
      have hu2 : UnpackBuf.unpack ⟨Group.dump ⟨true, gcols⟩, 4⟩ [.pad 32] =
          (.ok [], ⟨Group.dump ⟨true, gcols⟩, 36⟩) := by
        rw [show (⟨Group.dump ⟨true, gcols⟩, 4⟩ : UnpackBuf) =
            ⟨packUint 4 0xb ++ (groupMagic ++
              (gcols.map (columnBytes true)).flatten),
             (packUint 4 0xb).length⟩ from by
          simp [Group.dump, List.append_assoc]]
        rw [unpack_stream _ _ _ (by simp; try omega), readFields_pad32]
        simp [Group.dump, List.append_assoc]
        try omega
      rw [loadBody_ok _ _ _ _ hu2]
      rw [show Group.dump ⟨true, gcols⟩ =
          (packUint 4 0xb ++ groupMagic) ++
            (gcols.map (columnBytes true)).flatten from by
        simp [Group.dump]]
      rw [show (36 : Nat) = (packUint 4 0xb ++ groupMagic).length from by simp]
      rw [show maxColumnsOf true - 1 = gcols.length from by
        rw [hcnt9]; rfl]
      rw [loadColumns_roundtrip true gcols ⟨true, []⟩ _ rfl
        (by simp [maxColumnsOf, hcnt9]) (fun c hc => hcols c hc)]
      rfl

/-- C2 witness: the round trip evaluated on a generation number, a
one-entry identifier list whose name occupies the full 16-byte field,
and a compact layout with nine 4-byte column names. -/
theorem codec_roundtrip_witness :
    Version.load (Version.dump 3) = .ok 3 ∧
    Identifiers.load (Identifiers.dump
        ⟨3, [⟨42, true, 1, strBytes "Front Desk" ++ [0, 0, 0, 0, 0, 0]⟩]⟩) =
      .ok ⟨3, [⟨42, true, 1, strBytes "Front Desk" ++ [0, 0, 0, 0, 0, 0]⟩]⟩ ∧
    Group.load (Group.dump
        ⟨true, (List.range 9).map (fun i => ⟨i + 1, [67, 111, 108, 120]⟩)⟩) =
      .ok ⟨true, (List.range 9).map (fun i => ⟨i + 1, [67, 111, 108, 120]⟩)⟩ :=
  ⟨codec_roundtrip.1 3 (by decide),
   codec_roundtrip.2.1 _ (by simp only [identRoundValid]; decide),
   codec_roundtrip.2.2 _ (by simp only [groupRoundValid]; decide)⟩

/-- C2 counterexample: the round trips of the claim fail on the code.
A compact-mode layout with the two columns of the claim does not
decode back: decode reads nine records and underruns after two.  The
one-entry list named Front Desk decodes back with the six bytes of
trailing padding still in the 16-byte name field, not stripped. -/
theorem codec_roundtrip_counterexample :
    Group.load (Group.dump ⟨true, [⟨1, strBytes "Name"⟩, ⟨2, strBytes "Tel."⟩]⟩) =
      .error (.bufferUnderrun 0 24) ∧
    Identifiers.load (Identifiers.dump ⟨3, [⟨42, true, 1, strBytes "Front Desk"⟩]⟩) =
      .ok ⟨3, [⟨42, true, 1, strBytes "Front Desk" ++ [0, 0, 0, 0, 0, 0]⟩]⟩ ∧
    strBytes "Front Desk" ++ [0, 0, 0, 0, 0, 0] ≠ strBytes "Front Desk" := by
  refine ⟨by decide, by decide, by decide⟩

/-- C4 counterexample: a compact-mode layout already holding 10
columns accepts an 11th column without any error, because add_column
only raises when the count is strictly greater than max_columns. -/
theorem add_column_11th_succeeds :
    Group.add_column ⟨true, (List.range 10).map (fun i => ⟨i + 1, [65]⟩)⟩
        ⟨11, [66]⟩ =
      .ok ⟨true, ((List.range 10).map (fun i => ⟨i + 1, [65]⟩)) ++ [⟨11, [66]⟩]⟩ := by
  decide

/-- C4 amended: add_column raises GroupException exactly when the
layout already holds strictly more than max_columns columns, so a
compact-mode layout accepts an 11th column and fails on the 12th, and
a wide-mode layout accepts a 6th column and fails on the 7th. -/
theorem add_column_cap_check (g : Group) (c : GroupColumn) :
    (g.columns.length ≤ g.max_columns →
      Group.add_column g c = .ok { g with columns := g.columns ++ [c] }) ∧
    (g.max_columns < g.columns.length →
      Group.add_column g c = .error .groupMaxColumns) := by
  constructor
  · intro h
    simp only [Group.add_column]
    rw [if_neg (by omega)]
  · intro h
    simp only [Group.add_column]
    rw [if_pos (by omega)]

/-- C4 amended witness: the 12th add on a compact layout holding 11
columns fails; the 6th add on a wide layout holding 5 succeeds. -/
theorem add_column_cap_check_witness :
    Group.add_column ⟨true, (List.range 11).map (fun i => ⟨i + 1, [65]⟩)⟩
        ⟨12, [66]⟩ = .error .groupMaxColumns ∧
    Group.add_column ⟨false, (List.range 5).map (fun i => ⟨i + 1, [65]⟩)⟩
        ⟨6, [66]⟩ =
      .ok ⟨false, ((List.range 5).map (fun i => ⟨i + 1, [65]⟩)) ++ [⟨6, [66]⟩]⟩ :=
  ⟨(add_column_cap_check ⟨true, (List.range 11).map (fun i => ⟨i + 1, [65]⟩)⟩
      ⟨12, [66]⟩).2 (by decide),
   (add_column_cap_check ⟨false, (List.range 5).map (fun i => ⟨i + 1, [65]⟩)⟩
      ⟨6, [66]⟩).1 (by decide)⟩

/-- C5: Group.load reads a 4-byte discriminator and raises
GroupException carrying the offending value whenever it is neither
0xb (compact) nor 0x6 (wide); otherwise it sets the mode accordingly,
skips the next 32 bytes without looking at their content (replacing
them changes nothing), and reads exactly max_columns - 1 fixed-width
column records: 9 in compact mode, 4 in wide mode, given a buffer
long enough to hold them. -/
theorem group_load_spec (data : List Nat) (h4 : 4 ≤ data.length) :
    (beVal (data.take 4) ≠ 0xb → beVal (data.take 4) ≠ 0x6 →
      Group.load data = .error (.groupUnknownFormat (beVal (data.take 4)))) ∧
    (beVal (data.take 4) = 0xb → 252 ≤ data.length →
      ∃ g, Group.load data = .ok g ∧ g.short_columns = true ∧
        g.columns.length = 9) ∧
    (beVal (data.take 4) = 0x6 → 132 ≤ data.length →
      ∃ g, Group.load data = .ok g ∧ g.short_columns = false ∧
        g.columns.length = 4) ∧
    (∀ junk1 junk2 post, junk1.length = 32 → junk2.length = 32 →
      Group.load (data.take 4 ++ junk1 ++ post) =
        Group.load (data.take 4 ++ junk2 ++ post)) := by
  have htl : (data.take 4).length = 4 := by
    rw [List.length_take]
    omega
  have hu : UnpackBuf.unpack ⟨data, 0⟩ [.uint 4] =
      (.ok [.num (beVal (data.take 4))], ⟨data, 4⟩) := by
    have h := unpack_ok data 0 [.uint 4] (by simp; omega)
    rw [readFields_u4, List.drop_zero] at h
    simpa [List.take_take] using h
  have hload := group_load_eq data (beVal (data.take 4)) ⟨data, 4⟩ hu
  refine ⟨?_, ?_, ?_, ?_⟩
  · intro h1 h2
    rw [hload, if_neg h1, if_neg h2]
  · intro hb hlen
    rw [hload, if_pos hb]
    have hu2 := unpack_ok data 4 [.pad 32] (by simp; omega)
    rw [readFields_pad32] at hu2
    rw [loadBody_ok _ _ _ _ hu2]
    rw [show maxColumnsOf true - 1 = 9 from rfl,
      show (4 + calcsize [Field.pad 32] : Nat) = 36 from rfl]
    obtain ⟨g2, e1, e2, e3⟩ :=
      loadColumns_shape 9 true [] data 36 (by simp [maxColumnsOf]) (by omega)
    exact ⟨g2, e1, e2, by simpa using e3⟩
  · intro hb hlen
    rw [hload, if_neg (by rw [hb]; decide), if_pos hb]
    have hu2 := unpack_ok data 4 [.pad 32] (by simp; omega)
    rw [readFields_pad32] at hu2
    rw [loadBody_ok _ _ _ _ hu2]
    rw [show maxColumnsOf false - 1 = 4 from rfl,
      show (4 + calcsize [Field.pad 32] : Nat) = 36 from rfl]
    obtain ⟨g2, e1, e2, e3⟩ :=
      loadColumns_shape 4 false [] data 36 (by simp [maxColumnsOf]) (by omega)
    exact ⟨g2, e1, e2, by simpa using e3⟩
  · intro junk1 junk2 post hl1 hl2
    have ht4 : ∀ junk : List Nat, junk.length = 32 →
        (data.take 4 ++ junk ++ post).take 4 = data.take 4 := by
      intro junk _
      rw [List.append_assoc,
        List.take_append_of_le_length (by rw [htl]),
        List.take_take]
      norm_num
    have hlen4 : ∀ junk : List Nat, junk.length = 32 →
        4 ≤ (data.take 4 ++ junk ++ post).length := by
      intro junk hl
      simp [htl, hl]
    have huj : ∀ junk : List Nat, junk.length = 32 →
        UnpackBuf.unpack ⟨data.take 4 ++ junk ++ post, 0⟩ [.uint 4] =
          (.ok [.num (beVal (data.take 4))],
           ⟨data.take 4 ++ junk ++ post, 4⟩) := by
      intro junk hl
      have h := unpack_ok (data.take 4 ++ junk ++ post) 0 [.uint 4]
        (by have := hlen4 junk hl; simp at this ⊢; omega)
      rw [readFields_u4, List.drop_zero] at h
      rw [show ((data.take 4 ++ junk ++ post).take
          (calcsize [Field.uint 4])).take 4 = data.take 4 from by
        rw [List.take_take]
        exact ht4 junk hl] at h
      exact h
    have hdrop36 : ∀ junk : List Nat, junk.length = 32 →
        (data.take 4 ++ junk ++ post).drop (4 + 32) = post := by
      intro junk hl
      rw [show (4 + 32 : Nat) = (data.take 4 ++ junk).length from by
        simp [htl, hl]]
      exact List.drop_left _ _
    rw [group_load_eq _ _ _ (huj junk1 hl1),
      group_load_eq _ _ _ (huj junk2 hl2)]
    have hlatch : (data.take 4 ++ junk1 ++ post).length =
        (data.take 4 ++ junk2 ++ post).length := by
      simp [hl1, hl2]
    by_cases hb : beVal (data.take 4) = 0xb
    · rw [if_pos hb, if_pos hb]
      exact loadBody_congr true 4 _ _ hlatch
        (by rw [hdrop36 junk1 hl1, hdrop36 junk2 hl2])
    · rw [if_neg hb, if_neg hb]
      by_cases h6 : beVal (data.take 4) = 0x6
      · rw [if_pos h6, if_pos h6]
        exact loadBody_congr false 4 _ _ hlatch
          (by rw [hdrop36 junk1 hl1, hdrop36 junk2 hl2])
      · rw [if_neg h6, if_neg h6]

set_option maxRecDepth 4000 in
/-- C5 witness: a buffer opening with the compact discriminator and
248 zero bytes decodes to a compact layout with nine columns; a
buffer with an unrecognized discriminator fails carrying its value. -/
theorem group_load_spec_witness :
    (∃ g, Group.load (packUint 4 0xb ++ List.replicate 248 0) = .ok g ∧
      g.short_columns = true ∧ g.columns.length = 9) ∧
    Group.load [9, 9, 9, 9] =
      .error (.groupUnknownFormat (beVal (([9, 9, 9, 9] : List Nat).take 4))) :=
  ⟨(group_load_spec (packUint 4 0xb ++ List.replicate 248 0)
      (by decide)).2.1 (by decide) (by decide),
   (group_load_spec [9, 9, 9, 9] (by decide)).1 (by decide) (by decide)⟩

/-- C3 amended: decoding a GenerationCounter from a 3-byte buffer
fails, but with struct.error, not with the cursor underrun error,
because Version.load bypasses the bounded cursor; decoding an
IdentifierList whose declared entry count needs more bytes than the
buffer holds always fails without reading past the end — with
BufferUnderrun, unless an unrecognized frequency flag inside the
truncated data raises IdentifierException first. -/
theorem truncated_buffers_fail (data : List Nat) :
    (data.length = 3 → Version.load data = .error .structError) ∧
    (12 ≤ data.length → data.length < 12 + 36 * beVal (data.take 4) →
      ∃ err, Identifiers.load data = .error err ∧
        ((∃ left wanted, err = .bufferUnderrun left wanted) ∨
         (∃ flag, err = .identUnknownFlag flag))) := by
  constructor
  · intro h
    exact version_load_err_len data (by omega)
  · intro h12 hlt
    have hs : calcsize [Field.uint 4, Field.pad 4, Field.uint 4] = 12 := rfl
    have hu : UnpackBuf.unpack ⟨data, 0⟩ [.uint 4, .pad 4, .uint 4] =
        (.ok [.num (beVal (data.take 4)),
              .num (beVal ((data.drop 8).take 4))], ⟨data, 12⟩) := by
      have h := unpack_ok data 0 [.uint 4, .pad 4, .uint 4] (by rw [hs]; omega)
      rw [hs, List.drop_zero, readFields_identHeaderFmt] at h
      rw [show (data.take 12).take 4 = data.take 4 from by
        rw [List.take_take]
        rfl] at h
      rw [show ((data.take 12).drop 8).take 4 = (data.drop 8).take 4 from by
        rw [List.drop_take]
        norm_num [List.take_take]] at h
      exact h
    rw [ident_load_eq _ _ _ _ hu]
    exact loadEntries_truncated _ data 12 _ h12 (by omega)

/-- C3 counterexample: the 3-byte GenerationCounter decode does fail,
but its error is struct.error, which is not the BufferUnderrun error
of the claim for any payload. -/
theorem version_trunc_wrong_error_kind :
    Version.load [0, 0, 0] = .error .structError ∧
    ∀ left wanted, PyErr.structError ≠ PyErr.bufferUnderrun left wanted :=
  ⟨by decide, fun _ _ h => PyErr.noConfusion h⟩

/-- C3 amended witness: the 3-byte buffer fails with struct.error, and
a 12-byte identifier buffer declaring two entries but holding none
fails with an underrun or flag error. -/
theorem truncated_buffers_fail_witness :
    Version.load [0, 0, 0] = .error .structError ∧
    ∃ err, Identifiers.load (packUint 4 2 ++ packPad 4 ++ packUint 4 7) =
        .error err ∧
      ((∃ left wanted, err = .bufferUnderrun left wanted) ∨
       (∃ flag, err = .identUnknownFlag flag)) := by
  constructor
  · exact (truncated_buffers_fail [0, 0, 0]).1 (by decide)
  · have h := (truncated_buffers_fail
      (packUint 4 2 ++ packPad 4 ++ packUint 4 7)).2 (by decide) (by decide)
    exact h

/-- C7 amended: load_config increments the revision number by exactly
one on every call, whatever the configuration holds, even when it
raises; and on configurations whose keys and group fields parse as
integers and whose values split into exactly three comma-fields, it
raises IdentifierException exactly when some frequency token is
neither the true nor the false spelling. -/
theorem load_config_spec (idf : Identifiers) (items : List (String × String)) :
    ((Identifiers.load_config idf items).2.revision_nr = idf.revision_nr + 1) ∧
    ((∀ p ∈ items, configItemWF p) →
      ((∃ tok, (Identifiers.load_config idf items).1 =
          .error (.identUnknownConfigFlag tok)) ↔
        ∃ p ∈ items, freqTokenOf p ≠ "true".data ∧
          freqTokenOf p ≠ "false".data)) := by
  constructor
  · rfl
  · intro hwf
    have h : (Identifiers.load_config idf items).1 =
        (Identifiers.loadConfigLoop items []).1 := rfl
    rw [h]
    exact loadConfigLoop_malformed_iff items [] hwf

/-- C7 counterexample: an entry whose frequency token is unrecognized
but whose key does not parse as an integer makes load_config raise
ValueError, not IdentifierException, so the claimed equivalence fails
as stated; the revision number is still incremented. -/
theorem load_config_valueerror_first :
    (Identifiers.load_config ⟨1, []⟩ [("abc", "x,zzz,1")]).1 =
      .error .valueError ∧
    freqTokenOf ("abc", "x,zzz,1") = "zzz".data ∧
    (∀ tok, PyErr.valueError ≠ PyErr.identUnknownConfigFlag tok) ∧
    (Identifiers.load_config ⟨1, []⟩ [("abc", "x,zzz,1")]).2.revision_nr = 2 :=
  ⟨by decide, by decide, fun _ h => PyErr.noConfusion h, by decide⟩

/-- C7 amended witness: a well-formed single-item configuration with
the token maybe raises IdentifierException, and one with the token
true does not; the revision is incremented in both cases. -/
theorem load_config_spec_witness :
    (Identifiers.load_config ⟨1, []⟩
        [("5", "Front Desk,maybe,1")]).2.revision_nr = 1 + 1 ∧
    (∃ tok, (Identifiers.load_config ⟨1, []⟩
        [("5", "Front Desk,maybe,1")]).1 =
      .error (.identUnknownConfigFlag tok)) := by
  constructor
  · exact (load_config_spec ⟨1, []⟩ [("5", "Front Desk,maybe,1")]).1
  · refine ((load_config_spec ⟨1, []⟩ [("5", "Front Desk,maybe,1")]).2 ?_).mpr
      ⟨("5", "Front Desk,maybe,1"), by simp, by decide, by decide⟩
    intro p hp
    have hp2 : p = ("5", "Front Desk,maybe,1") := by simpa using hp
    rw [hp2]
    exact ⟨by decide, "Front Desk".data, "maybe".data, "1".data,
      by decide, by decide⟩

end Aficio
